import Mathlib

/-!
Verification of the household-prosumer adversarial-attack optimization model
(`src/model.py`).  The Python code builds Gurobi models; here the model data,
constraint systems and orchestration logic are shallowly embedded:

* numeric values are rationals (`ℚ`);
* a variable assignment is a plain function / structure of rationals, and each
  Gurobi constraint family becomes a `Prop` over assignments, translated
  line-by-line from the `addConstrs` calls;
* the solver itself is an external black box; the orchestration code
  (`Control`) is embedded as build/solve step traces and as loops over
  abstract solver oracles;
* Python failure modes (list index out of range, `ZeroDivisionError`) are
  embedded with `Option`.
-/

namespace AdvAttack

/-- `GRB.INFINITY` is the floating point constant `1e100`. -/
def GRB_INFINITY : ℚ := 10 ^ 100

/-- A bound specification, `float | list[float]` in `AttackParams`. -/
inductive Bnd where
  | scalar (q : ℚ)
  | vector (l : List ℚ)
  deriving DecidableEq, Repr

/-- The per-hour value of a bound specification (Gurobi broadcasts a scalar
bound over all variables of an `addVars` call). -/
def Bnd.at : Bnd → ℕ → ℚ
  | .scalar q, _ => q
  | .vector l, i => l.getD i 0

/-- `HouseParams` (src/model.py lines 6-27). -/
structure HouseParams where
  life_time : ℕ
  price_PV : ℚ
  price_battery : ℚ
  cost_buy : ℚ
  sell_price : ℚ
  total_demand : ℚ
  demands : List ℚ
  PV_availabilities : List ℚ
  deriving DecidableEq, Repr

/-- `HouseParams.cost_PV` property: `price_PV / life_time`. -/
def HouseParams.cost_PV (hp : HouseParams) : ℚ := hp.price_PV / hp.life_time

/-- `HouseParams.cost_battery` property: `price_battery / life_time`. -/
def HouseParams.cost_battery (hp : HouseParams) : ℚ := hp.price_battery / hp.life_time

/-- `HouseParams.hours_num` property: `len(self.demands)`. -/
def HouseParams.hours_num (hp : HouseParams) : ℕ := hp.demands.length

/-- `AttackParams` (src/model.py lines 29-36). -/
structure AttackParams where
  capacity_battery : Option ℚ := none
  capacity_PV : Option ℚ := none
  lb : Bnd := .scalar (-GRB_INFINITY)
  ub : Bnd := .scalar GRB_INFINITY
  norm : ℕ := 1
  total_delta_ub : ℚ := GRB_INFINITY
  deriving DecidableEq, Repr

/-- `PADM_Params` (src/model.py lines 39-46). -/
structure PADM_Params where
  initial_mu : ℚ := 1
  increase_factor : ℚ := 2
  max_penalty_iter : ℕ := 15
  max_stationary_iter : ℕ := 200
  stationary_error : ℚ := 1 / 10000
  penalty_error : ℚ := 1 / 10000
  deriving DecidableEq, Repr

/-! ## Assignments of the model's decision variables

`add_vars` (lines 58-109) creates the variable families.  An assignment of
the primal family is a `PrimalSol`; upper-level and dual families are plain
functions where needed.  Default Gurobi bounds (`lb = 0`) become
non-negativity conditions in the feasibility predicates. -/
/-- An assignment of the primal variable family (lines 64-73). -/
structure PrimalSol where
  energy_PV : ℕ → ℚ
  energy_battery : ℕ → ℚ
  energy_battery_in : ℕ → ℚ
  energy_battery_out : ℕ → ℚ
  energy_buy : ℕ → ℚ
  energy_sell : ℕ → ℚ
  capacity_battery : ℚ
  capacity_PV : ℚ

/-- Python list indexing `range(H)[k]` for an `int` index `k` that may be
negative: a negative index counts from the end of the list. -/
def pyListIdx (H : ℕ) (k : ℤ) : ℕ := (if k < 0 then k + H else k).toNat

/-- Non-negativity of the primal variables: every `addVars`/`addVar` call of
the primal family (lines 66-73) uses the Gurobi default lower bound `0`. -/
def PrimalNonneg (H : ℕ) (S : PrimalSol) : Prop :=
  (∀ i < H, 0 ≤ S.energy_PV i) ∧
  (∀ i < H, 0 ≤ S.energy_battery i) ∧
  (∀ i < H, 0 ≤ S.energy_battery_in i) ∧
  (∀ i < H, 0 ≤ S.energy_battery_out i) ∧
  (∀ i < H, 0 ≤ S.energy_buy i) ∧
  (∀ i < H, 0 ≤ S.energy_sell i) ∧
  0 ≤ S.capacity_battery ∧ 0 ≤ S.capacity_PV

/-- The `eq_demand` constraint family (lines 140-150): per-hour energy
balance against the (possibly attacked) demand. -/
def EqDemand (hp : HouseParams) (delta : ℕ → ℚ) (S : PrimalSol) : Prop :=
  ∀ i < hp.hours_num,
    S.energy_buy i - S.energy_sell i + S.energy_battery_out i -
      S.energy_battery_in i + S.energy_PV i =
    hp.demands.getD i 0 * hp.total_demand * (1 + delta i)

/-- The `eq_battery` constraint family (lines 152-160): battery balance,
where the previous hour is the Python expression
`range(hours_num)[i-1]` (negative-index wraparound at `i = 0`). -/
def EqBattery (hp : HouseParams) (S : PrimalSol) : Prop :=
  ∀ i < hp.hours_num,
    S.energy_battery (pyListIdx hp.hours_num ((i : ℤ) - 1)) +
      S.energy_battery_in i - S.energy_battery_out i =
    S.energy_battery i

/-- The `limit_PV` constraint family (lines 162-168). -/
def LimitPV (hp : HouseParams) (S : PrimalSol) : Prop :=
  ∀ i < hp.hours_num,
    S.energy_PV i ≤ S.capacity_PV * hp.PV_availabilities.getD i 0

/-- The `limit_battery` constraint family (lines 170-176). -/
def LimitBattery (hp : HouseParams) (S : PrimalSol) : Prop :=
  ∀ i < hp.hours_num, S.energy_battery i ≤ S.capacity_battery

/-- All constraints installed by `add_primal_constrs` (lines 138-176),
together with the variable bounds from `add_vars`. -/
def PrimalFeasible (hp : HouseParams) (delta : ℕ → ℚ) (S : PrimalSol) : Prop :=
  PrimalNonneg hp.hours_num S ∧ EqDemand hp delta S ∧ EqBattery hp S ∧
    LimitPV hp S ∧ LimitBattery hp S

/-- The primal objective expression `self.obj["primal"]` (lines 179-184). -/
def primal_obj (hp : HouseParams) (S : PrimalSol) : ℚ :=
  hp.cost_PV * S.capacity_PV + hp.cost_battery * S.capacity_battery +
    hp.cost_buy * ∑ i ∈ Finset.range hp.hours_num, S.energy_buy i -
    hp.sell_price * ∑ i ∈ Finset.range hp.hours_num, S.energy_sell i

/-! ## The baseline scenario of C3

House parameters for `H = 24` hours, uniform demand shares `1/24`, total
demand `3500`, zero PV availability, buy price `0.25`, sell price `0.05`;
PV and battery prices stay symbolic. -/
/-- The scenario's house parameters. -/
def c3House (pPV pB : ℚ) (lt : ℕ) : HouseParams :=
  { life_time := lt, price_PV := pPV, price_battery := pB,
    cost_buy := 1 / 4, sell_price := 1 / 20, total_demand := 3500,
    demands := List.replicate 24 (1 / 24),
    PV_availabilities := List.replicate 24 0 }

/-- The scenario's attack parameters: `lb = ub = 0` (no attack). -/
def c3Attack : AttackParams := { lb := .scalar 0, ub := .scalar 0 }

/-- The claimed baseline optimum: no PV, no battery, everything bought from
the grid. -/
def c3Sol : PrimalSol :=
  { energy_PV := fun _ => 0, energy_battery := fun _ => 0,
    energy_battery_in := fun _ => 0, energy_battery_out := fun _ => 0,
    energy_buy := fun _ => 1 / 24 * 3500, energy_sell := fun _ => 0,
    capacity_battery := 0, capacity_PV := 0 }

/-- House parameters used for concrete witnesses: two hours, zero demand
vectors, so the all-zero assignment is primal feasible. -/
def wHouse : HouseParams :=
  { life_time := 1, price_PV := 0, price_battery := 0, cost_buy := 0,
    sell_price := 0, total_demand := 0, demands := [0, 0],
    PV_availabilities := [0, 0] }

/-- The all-zero primal assignment. -/
def zeroSol : PrimalSol :=
  { energy_PV := fun _ => 0, energy_battery := fun _ => 0,
    energy_battery_in := fun _ => 0, energy_battery_out := fun _ => 0,
    energy_buy := fun _ => 0, energy_sell := fun _ => 0,
    capacity_battery := 0, capacity_PV := 0 }

/-! ## Build/solve traces of the `Control` operations

Each `Control` method builds a fresh `HouseModel` and performs a sequence of
build, objective, solve and value-read calls on it.  The sequences are
transcribed from the method bodies; the solver itself stays a black box.
`Step.branchOnStatus` represents an inspection of the solver status returned
by `HouseModel.solve` (line 556-558); no method body performs one, and the
constructor exists so that this absence is expressible. -/
/-- The closed set of keys of `self.vars` (lines 58-109). -/
inductive VarGroup where
  | upper_level
  | primal
  | dual
  | aux
  | cs
  deriving DecidableEq, Repr

/-- Optimization sense handed to `model.setObjective`. -/
inductive Sense where
  | minimize
  | maximize
  deriving DecidableEq, Repr

/-- The objective names `set_obj` distinguishes; `other` stands for any name
outside the four accepted ones. -/
inductive ObjKey where
  | primal
  | upper_level
  | PADM
  | dual
  | other
  deriving DecidableEq, Repr

/-- `HouseModel.set_obj` (lines 534-542): names in
`("primal", "upper_level", "PADM")` get `GRB.MINIMIZE`, `"dual"` gets
`GRB.MAXIMIZE`, anything else raises. -/
def set_obj_sense : ObjKey → Except Unit Sense
  | .primal => .ok .minimize
  | .upper_level => .ok .minimize
  | .PADM => .ok .minimize
  | .dual => .ok .maximize
  | .other => .error ()

/-- `self.obj["upper_level"]` (line 136): the sum over all hours of the
`abs` variables. -/
def upper_level_obj (H : ℕ) (absv : ℕ → ℚ) : ℚ := ∑ i ∈ Finset.range H, absv i

/-- `set_valid_ineq_obj` (lines 547-548): objective expression `delta[i]`. -/
def valid_ineq_obj_expr (delta : ℕ → ℚ) (i : ℕ) : ℚ := delta i

/-- `set_valid_ineq_obj` (lines 547-548): sense `GRB.MAXIMIZE`. -/
def valid_ineq_obj_sense : Sense := .maximize

/-- One call performed on a `HouseModel`. -/
inductive Step where
  | addVars
  | addUpperLevelConstrs
  | addPrimalConstrs
  | addDualConstrs
  | addAuxConstrs
  | addBigMConstrs
  | addSOSConstrs
  | addValidIneqConstr
  | fixVars (g : VarGroup)
  | releaseVars (g : VarGroup)
  | setObj (k : ObjKey)
  | setPADMObj
  | setValidIneqObj (i : ℕ)
  | solve
  | getObjValue (k : Option ObjKey)
  | getValues (g : VarGroup)
  | getDemands
  | getChangedDemands
  | branchOnStatus
  deriving DecidableEq, Repr

/-- `s` reads a variable or objective value off the model. -/
def Step.isRead : Step → Bool
  | .getObjValue _ => true
  | .getValues _ => true
  | .getDemands => false
  | .getChangedDemands => true
  | _ => false

/-- `s` sets the model objective via `set_obj`. -/
def Step.isSetObj : Step → Bool
  | .setObj _ => true
  | _ => false

/-- `Control.primal_model` (lines 596-604). -/
def primal_model_trace : List Step :=
  [.addVars, .addPrimalConstrs, .fixVars .upper_level, .setObj .primal,
   .solve, .getValues .primal, .getValues .primal]

/-- `Control.dual_model` (lines 606-613). -/
def dual_model_trace : List Step :=
  [.addVars, .addDualConstrs, .fixVars .upper_level, .setObj .dual, .solve,
   .getValues .dual]

/-- `Control.bigM_attack` (lines 615-636). -/
def bigM_attack_trace : List Step :=
  [.addVars, .addUpperLevelConstrs, .addPrimalConstrs, .addDualConstrs,
   .addAuxConstrs, .addBigMConstrs, .setObj .upper_level, .solve,
   .getObjValue (some .primal), .getObjValue (some .dual),
   .getValues .primal, .getValues .primal, .getDemands, .getChangedDemands,
   .getValues .primal, .getValues .primal, .getValues .primal,
   .getValues .primal]

/-- `Control.sos_attack` (lines 638-656). -/
def sos_attack_trace : List Step :=
  [.addVars, .addUpperLevelConstrs, .addPrimalConstrs, .addDualConstrs,
   .addAuxConstrs, .addSOSConstrs, .setObj .upper_level, .solve,
   .getObjValue (some .primal), .getObjValue (some .dual), .getDemands,
   .getChangedDemands, .getValues .primal, .getValues .primal,
   .getValues .primal]

/-- `Control.get_ub_valid_ineq` (lines 658-669): the trace of the fresh
auxiliary model; one `set_valid_ineq_obj(i); solve(); get_obj_value()`
block per hour. -/
def get_ub_valid_ineq_trace (H : ℕ) : List Step :=
  [.addVars, .addUpperLevelConstrs, .addPrimalConstrs] ++
    (List.range H).flatMap
      (fun i => [.setValidIneqObj i, .solve, .getObjValue none])

/-- `Control.sos_valid_ineq_attack` (lines 671-683), steps tagged by the
model they act on: `true` = the main reformulation model `hm`, `false` =
the auxiliary model built inside `get_ub_valid_ineq` (called between
`add_sos_constrs` and `add_valid_ineq_constr`). -/
def sos_valid_ineq_events (H : ℕ) : List (Bool × Step) :=
  ([Step.addVars, .addUpperLevelConstrs, .addPrimalConstrs, .addDualConstrs,
    .addAuxConstrs, .addSOSConstrs].map (fun s => (true, s))) ++
  ((get_ub_valid_ineq_trace H).map (fun s => (false, s))) ++
  [(true, .addValidIneqConstr), (true, .solve),
   (true, .getObjValue (some .primal)), (true, .getObjValue (some .dual))]

/-- The calls `Control.sos_valid_ineq_attack` performs on its own model
`hm` (lines 671-683); note the absence of any `set_obj` call. -/
def sos_valid_ineq_main_trace : List Step :=
  [.addVars, .addUpperLevelConstrs, .addPrimalConstrs, .addDualConstrs,
   .addAuxConstrs, .addSOSConstrs, .addValidIneqConstr, .solve,
   .getObjValue (some .primal), .getObjValue (some .dual)]

/-- `Control.PADM_attack` (lines 685-697): the fixed prefix before the
outer loop. -/
def PADM_prefix_trace : List Step :=
  [.addVars, .addUpperLevelConstrs, .addPrimalConstrs, .addDualConstrs,
   .setObj .upper_level, .solve, .getValues .primal, .getValues .dual,
   .getValues .upper_level]

/-- One iteration of `Control.PADM_attack`'s inner loop (lines 703-731). -/
def PADM_inner_body_trace : List Step :=
  [.setPADMObj, .fixVars .dual, .solve, .getValues .primal,
   .getValues .upper_level, .releaseVars .dual, .fixVars .primal,
   .fixVars .upper_level, .solve, .getValues .dual, .releaseVars .primal,
   .releaseVars .upper_level]

/-- The objective reads of `Control.PADM_attack`'s outer check
(lines 732-733). -/
def PADM_outer_check_trace : List Step :=
  [.getObjValue (some .primal), .getObjValue (some .dual)]

/-- The final prints of `Control.PADM_attack` (lines 738-742). -/
def PADM_final_trace : List Step :=
  [.getObjValue (some .upper_level), .getObjValue (some .primal),
   .getObjValue (some .dual), .getValues .primal, .getValues .primal]

/-- After the first `solve` of a trace, some value is read. -/
def readsAfterSolve (t : List Step) : Bool :=
  (t.dropWhile (fun s => s ≠ Step.solve)).any Step.isRead

/-! ## Upper-level constraints (`add_upper_level_constrs`, lines 111-136) -/
/-- An assignment of the upper-level variable family (lines 60-62):
`delta` and the `abs` variables. -/
structure UpperSol where
  delta : ℕ → ℚ
  absv : ℕ → ℚ

/-- The constraints of `add_upper_level_constrs` (lines 111-133):
zero-net demand change, `abs[i] = |delta[i]|`, and the optional capacity
pins from `AttackParams`. -/
def UpperLevelConstrs (hp : HouseParams) (ap : AttackParams) (U : UpperSol)
    (S : PrimalSol) : Prop :=
  (∑ i ∈ Finset.range hp.hours_num, U.delta i * hp.demands.getD i 0) = 0 ∧
  (∀ i < hp.hours_num, U.absv i = |U.delta i|) ∧
  (∀ cb, ap.capacity_battery = some cb → cb = S.capacity_battery) ∧
  (∀ cp, ap.capacity_PV = some cp → cp = S.capacity_PV)

/-- The `delta` variable bounds from `add_vars` (line 61): `lb` and `ub`
come from `AttackParams`. -/
def DeltaBounds (hp : HouseParams) (ap : AttackParams) (U : UpperSol) : Prop :=
  ∀ i < hp.hours_num, ap.lb.at i ≤ U.delta i ∧ U.delta i ≤ ap.ub.at i

/-- `self.obj["dual"]` (line 238): the dual objective expression, a function
of the `eq_demand` dual variables and `delta`. -/
def dual_obj (hp : HouseParams) (eq_demand delta : ℕ → ℚ) : ℚ :=
  ∑ i ∈ Finset.range hp.hours_num,
    eq_demand i * hp.demands.getD i 0 * hp.total_demand * (1 + delta i)

/-- `add_valid_ineq_constr` (lines 506-510): the single cut
`obj["primal"] <= Σ eq_demand[i]·demands[i]·total_demand·(1+ub[i])`. -/
def ValidIneqConstr (hp : HouseParams) (S : PrimalSol) (eq_demand : ℕ → ℚ)
    (ub : List ℚ) : Prop :=
  primal_obj hp S ≤
    ∑ i ∈ Finset.range hp.hours_num,
      eq_demand i * hp.demands.getD i 0 * hp.total_demand * (1 + ub.getD i 0)

/-! ## `fix_vars` / `release_vars` (lines 512-532)

`fix_vars(name, fix_value)` flattens the variable group `self.vars[name]`
into `var_list`, adds one equality constraint per variable
(`fix_value == var`, or `var.X == var` when `fix_value is None`) and stores
the new constraint objects in `self.constrs["fix"][name]` (overwriting any
previous entry).  `release_vars(name)` removes exactly those constraints
from the model and deletes the dict entry.  Gurobi constraint objects are
modelled by fresh integer ids. -/
/-- One fixing constraint `pin == var`. -/
structure FixConstr where
  pin : ℚ
  var : ℕ
  deriving DecidableEq, Repr

/-- The state of a `HouseModel` that `fix_vars`/`release_vars` act on. -/
structure FixState where
  constrs : List (ℕ × FixConstr)
  fixMap : List (VarGroup × List ℕ)
  vars : VarGroup → List ℕ
  solvedX : ℕ → ℚ
  nextId : ℕ

/-- The pinned value: `fix_value` when given, else `var.X`
(lines 524-527). -/
def pinValue (m : FixState) (v : Option ℚ) (x : ℕ) : ℚ :=
  match v with
  | some q => q
  | none => m.solvedX x

/-- The constraints `fix_vars` appends, ids counted from `n`. -/
def mkFixConstrs (m : FixState) (v : Option ℚ) :
    ℕ → List ℕ → List (ℕ × FixConstr)
  | _, [] => []
  | n, x :: xs => (n, ⟨pinValue m v x, x⟩) :: mkFixConstrs m v (n + 1) xs

/-- Python dict assignment `self.constrs["fix"][name] = constr_list`. -/
def setEntry (g : VarGroup) (ids : List ℕ) :
    List (VarGroup × List ℕ) → List (VarGroup × List ℕ)
  | [] => [(g, ids)]
  | (g', ids') :: rest =>
    if g' = g then (g, ids) :: rest else (g', ids') :: setEntry g ids rest

/-- `HouseModel.fix_vars` (lines 512-527). -/
def fix_vars (m : FixState) (g : VarGroup) (v : Option ℚ) : FixState :=
  let vl := m.vars g
  let newCons := mkFixConstrs m v m.nextId vl
  { m with constrs := m.constrs ++ newCons,
           fixMap := setEntry g (newCons.map Prod.fst) m.fixMap,
           nextId := m.nextId + vl.length }

/-- `HouseModel.release_vars` (lines 529-532). -/
def release_vars (m : FixState) (g : VarGroup) : FixState :=
  let ids := (m.fixMap.lookup g).getD []
  { m with constrs := m.constrs.filter (fun c => c.1 ∉ ids),
           fixMap := m.fixMap.filter (fun p => p.1 ≠ g) }

/-! ## `Control.PADM_attack` (lines 685-742)

The double loop is embedded over black-box solver oracles: `step mu s` is
one inner iteration (fix the dual variables at `s.dual`, solve the model
with the PADM objective at weight `mu`, read the new primal/upper-level
snapshots, then fix those and solve for the dual snapshot); `pd mu t` reads
`get_obj_value("primal")` and `get_obj_value("dual")` off the model at
the end of an inner loop whose final snapshots are `t`.  A snapshot group
(`get_values`) is a list of per-variable value lists, scalar entries as
singletons (`diff_values` wraps scalars into 1-tuples, lines 586-588). -/
/-- The largest entry of a list, starting from `-inf`
(`max_diff = -float('inf')`, line 584). -/
def listMaxQ (l : List ℚ) : WithBot ℚ :=
  l.foldl (fun m a => max m (a : WithBot ℚ)) ⊥

/-- `Control.diff_values` (lines 582-594) on aligned group pairs: the
maximum over all groups of the largest componentwise difference
`A[key] - B[key]` (the largest signed decrease from `A` to `B`). -/
def diff_values (gs : List (List ℚ × List ℚ)) : WithBot ℚ :=
  gs.foldl
    (fun m p => max m (listMaxQ (List.zipWith (fun a b => a - b) p.1 p.2))) ⊥

/-- The three snapshots kept by `PADM_attack`: the values of the primal,
dual and upper-level variable groups. -/
structure Snaps where
  primal : List (List ℚ)
  dual : List (List ℚ)
  upper : List (List ℚ)

/-- `diff = max(primal_diff, dual_diff, upper_level_diff)` (lines
723-726). -/
def snapsDiff (s t : Snaps) : WithBot ℚ :=
  max (diff_values (s.primal.zip t.primal))
    (max (diff_values (s.dual.zip t.dual)) (diff_values (s.upper.zip t.upper)))

/-- The inner `while True` loop (lines 703-731): at iteration `i` the two
solves produce new snapshots `t`; the loop exits when
`diff < stationary_error or i >= max_stationary_iter`, else repeats with
`i + 1`. -/
def innerLoop (step : ℚ → Snaps → Snaps) (eps : ℚ) (maxIter : ℕ) (mu : ℚ)
    (i : ℕ) (s : Snaps) : ℕ × Snaps :=
  let t := step mu s
  if h : snapsDiff s t < (eps : WithBot ℚ) ∨ maxIter ≤ i then (i, t)
  else innerLoop step eps maxIter mu (i + 1) t
termination_by maxIter - i
decreasing_by
  push_neg at h
  omega

/-- The snapshot sequence generated by the inner loop's solves. -/
def innerSeq (step : ℚ → Snaps → Snaps) (mu : ℚ) (s0 : Snaps) : ℕ → Snaps
  | 0 => s0
  | n + 1 => step mu (innerSeq step mu s0 n)

/-- The inner loop's exit condition, tested at iteration `m ≥ 1`
(line 730). -/
def innerStop (step : ℚ → Snaps → Snaps) (eps : ℚ) (maxIter : ℕ) (mu : ℚ)
    (s0 : Snaps) (m : ℕ) : Prop :=
  snapsDiff (innerSeq step mu s0 (m - 1)) (innerSeq step mu s0 m) <
      (eps : WithBot ℚ) ∨ maxIter ≤ m

/-- Python float division, which raises `ZeroDivisionError` on a zero
denominator. -/
def pyDiv (a b : ℚ) : Option ℚ := if b = 0 then none else some (a / b)

/-- The outer check expression
`abs((primal_obj_value - dual_obj_value)/primal_obj_value)` (line 734);
`none` is the `ZeroDivisionError`. -/
def outerGap (p d : ℚ) : Option ℚ := (pyDiv (p - d) p).map (fun x => |x|)

/-- The outer `while True` loop (lines 699-737): run the inner loop, read
the primal and dual objective values, and stop when
`abs((p - d)/p) < penalty_error or j >= max_penalty_iter`; otherwise
multiply `mu` by `increase_factor` and re-enter the inner loop.  A `none`
result is the uncaught `ZeroDivisionError` of the check. -/
def outerLoop (step : ℚ → Snaps → Snaps) (pd : ℚ → Snaps → ℚ × ℚ)
    (eps : ℚ) (maxInner : ℕ) (peps : ℚ) (maxOuter : ℕ) (incr : ℚ)
    (j : ℕ) (mu : ℚ) (s : Snaps) : Option (ℕ × ℚ × Snaps) :=
  match outerGap (pd mu (innerLoop step eps maxInner mu 1 s).2).1
      (pd mu (innerLoop step eps maxInner mu 1 s).2).2 with
  | none => none
  | some gap =>
    if h : gap < peps ∨ maxOuter ≤ j then
      some (j, mu, (innerLoop step eps maxInner mu 1 s).2)
    else outerLoop step pd eps maxInner peps maxOuter incr (j + 1) (mu * incr)
      (innerLoop step eps maxInner mu 1 s).2
termination_by maxOuter - j
decreasing_by
  push_neg at h
  omega

/-- `Control.PADM_attack` (lines 685-742): after the initial solve produced
snapshots `s0`, the outer loop starts at `j = 1` with `mu = initial_mu`. -/
def PADM_attack (step : ℚ → Snaps → Snaps) (pd : ℚ → Snaps → ℚ × ℚ)
    (pp : PADM_Params) (s0 : Snaps) : Option (ℕ × ℚ × Snaps) :=
  outerLoop step pd pp.stationary_error pp.max_stationary_iter
    pp.penalty_error pp.max_penalty_iter pp.increase_factor 1 pp.initial_mu s0

/-- The state `(mu, snapshots)` entering outer iteration `n + 1`. -/
def outerSeq (step : ℚ → Snaps → Snaps) (eps : ℚ) (maxInner : ℕ) (incr : ℚ)
    (mu0 : ℚ) (s0 : Snaps) : ℕ → ℚ × Snaps
  | 0 => (mu0, s0)
  | n + 1 =>
    ((outerSeq step eps maxInner incr mu0 s0 n).1 * incr,
      (innerLoop step eps maxInner
        (outerSeq step eps maxInner incr mu0 s0 n).1 1
        (outerSeq step eps maxInner incr mu0 s0 n).2).2)

/-- The primal/dual objective values read at the end of outer iteration
`j`'s inner loop (lines 732-733). -/
def outerPD (step : ℚ → Snaps → Snaps) (pd : ℚ → Snaps → ℚ × ℚ)
    (eps : ℚ) (maxInner : ℕ) (incr : ℚ) (mu0 : ℚ) (s0 : Snaps) (j : ℕ) :
    ℚ × ℚ :=
  pd (outerSeq step eps maxInner incr mu0 s0 (j - 1)).1
    (innerLoop step eps maxInner
      (outerSeq step eps maxInner incr mu0 s0 (j - 1)).1 1
      (outerSeq step eps maxInner incr mu0 s0 (j - 1)).2).2

/-- The outer loop's exit condition at iteration `j` (line 734), in the
non-erroring case. -/
def outerStop (step : ℚ → Snaps → Snaps) (pd : ℚ → Snaps → ℚ × ℚ)
    (eps : ℚ) (maxInner : ℕ) (peps : ℚ) (maxOuter : ℕ) (incr : ℚ)
    (mu0 : ℚ) (s0 : Snaps) (j : ℕ) : Prop :=
  |((outerPD step pd eps maxInner incr mu0 s0 j).1 -
      (outerPD step pd eps maxInner incr mu0 s0 j).2) /
    (outerPD step pd eps maxInner incr mu0 s0 j).1| < peps ∨ maxOuter ≤ j

/-- Witness oracles for the PADM theorems: a stationary solver and constant
objective values. -/
def wStep : ℚ → Snaps → Snaps := fun _ s => s

def wPD : ℚ → Snaps → ℚ × ℚ := fun _ _ => (1, 1)

def wSnaps : Snaps := ⟨[[0]], [[0]], [[0]]⟩

/-! ## Construction (`HouseModel.__init__`, lines 48-56) -/
/-- The configuration-error type that fail-fast validation would raise
(mismatched vector lengths, `lb > ub`).  No code path in the source raises
it. -/
inductive ConfigError where
  | mismatchedLengths
  | invalidBounds
  deriving DecidableEq, Repr

/-- The state `__init__` produces: the stored parameter containers and the
fresh empty bookkeeping dicts. -/
structure InitState where
  house_params : HouseParams
  attack_params : AttackParams
  fix0 : List (VarGroup × List ℕ)

/-- `HouseModel.__init__` (lines 48-56): stores `house_params` and
`attack_params`, creates the Gurobi model and the empty `vars`/`obj`/
`constrs` dicts.  Its body contains no check of the parameters, so it
always succeeds. -/
def houseModelInit (hp : HouseParams) (ap : AttackParams) :
    Except ConfigError InitState :=
  .ok ⟨hp, ap, []⟩

/-- The per-hour coefficient reads `self.house_params.PV_availabilities[i]`
performed by the `limit_PV` constraint build (lines 162-168), with Python
list-indexing semantics: `none` is the `IndexError` raised when the
PV-availability vector is shorter than the demand vector. -/
def limitPV_build (hp : HouseParams) : Option (List ℚ) :=
  (List.range hp.hours_num).mapM (fun i => hp.PV_availabilities[i]?)

/-- Mismatched parameters: two demand entries but only one PV-availability
entry, and attack bounds with `lb = 1 > 0 = ub`. -/
def c8House : HouseParams :=
  { life_time := 1, price_PV := 0, price_battery := 0, cost_buy := 0,
    sell_price := 0, total_demand := 0, demands := [1 / 2, 1 / 2],
    PV_availabilities := [0] }

/-- Attack bounds with `lb > ub`. -/
def c8Attack : AttackParams := { lb := .scalar 1, ub := .scalar 0 }

end AdvAttack

namespace AdvAttack

lemma prev_emod (H i : ℕ) (hi : i < H) :
    ((i : ℤ) - 1) % (H : ℤ) = if i = 0 then (H : ℤ) - 1 else (i : ℤ) - 1 := by
  rcases Nat.eq_zero_or_pos i with rfl | hpos
  · rw [if_pos rfl]
    rw [show ((0 : ℕ) : ℤ) - 1 = ((H : ℤ) - 1) + (H : ℤ) * (-1) by ring,
      Int.add_mul_emod_self_left, Int.emod_eq_of_lt (by omega) (by omega)]
  · rw [if_neg (by omega), Int.emod_eq_of_lt (by omega) (by omega)]

/-- Python's `range(H)[i-1]` coincides with `(i-1) mod H` for `0 ≤ i < H`. -/
lemma pyListIdx_prev_eq_emod (H i : ℕ) (hi : i < H) :
    pyListIdx H ((i : ℤ) - 1) = ((((i : ℤ) - 1) % (H : ℤ))).toNat := by
  rw [prev_emod H i hi]
  simp only [pyListIdx]
  split_ifs <;> omega

lemma pyListIdx_prev_lt (H i : ℕ) (hi : i < H) :
    pyListIdx H ((i : ℤ) - 1) < H := by
  simp only [pyListIdx]
  split <;> omega

/-- Reindexing a sum over the hours by the circular predecessor map. -/
lemma sum_pyPrev (H : ℕ) (f : ℕ → ℚ) :
    ∑ i ∈ Finset.range H, f (pyListIdx H ((i : ℤ) - 1)) =
      ∑ i ∈ Finset.range H, f i := by
  refine Finset.sum_bij' (fun a _ => pyListIdx H ((a : ℤ) - 1))
    (fun b _ => if b + 1 = H then 0 else b + 1) ?_ ?_ ?_ ?_ ?_
  · intro a ha
    simp only [Finset.mem_range] at ha ⊢
    simp only [pyListIdx]
    split_ifs <;> omega
  · intro a ha
    simp only [Finset.mem_range] at ha ⊢
    split_ifs <;> omega
  · intro a ha
    simp only [Finset.mem_range] at ha
    simp only [pyListIdx]
    split_ifs <;> omega
  · intro a ha
    simp only [Finset.mem_range] at ha
    simp only [pyListIdx]
    split_ifs <;> omega
  · intro a ha
    rfl

lemma getD_rep {α : Type} (a d : α) :
    ∀ (n i : ℕ), i < n → (List.replicate n a).getD i d = a
  | _ + 1, 0, _ => rfl
  | n + 1, i + 1, h => getD_rep a d n i (Nat.lt_of_succ_lt_succ h)

lemma wHouse_feasible : PrimalFeasible wHouse (fun _ => 0) zeroSol := by
  refine ⟨⟨?_, ?_, ?_, ?_, ?_, ?_, by norm_num [zeroSol], by norm_num [zeroSol]⟩,
    ?_, ?_, ?_, ?_⟩ <;>
    intro i hi <;>
    norm_num [zeroSol, wHouse]

lemma c3_hours (pPV pB : ℚ) (lt : ℕ) : (c3House pPV pB lt).hours_num = 24 := by
  simp [c3House, HouseParams.hours_num]

lemma c3Sol_feasible (pPV pB : ℚ) (lt : ℕ) :
    PrimalFeasible (c3House pPV pB lt) (fun _ => 0) c3Sol := by
  refine ⟨⟨?_, ?_, ?_, ?_, ?_, ?_, by norm_num [c3Sol], by norm_num [c3Sol]⟩,
    ?_, ?_, ?_, ?_⟩
  case refine_7 =>
    intro i hi
    have hi24 : i < 24 := by simpa using (c3_hours pPV pB lt) ▸ hi
    have hd : (c3House pPV pB lt).demands.getD i 0 = 1 / 24 :=
      getD_rep _ _ _ _ hi24
    simp only [c3Sol]
    rw [hd]
    norm_num [c3House]
  all_goals intro i hi
  all_goals norm_num [c3Sol, c3House]

lemma c3Sol_obj (pPV pB : ℚ) (lt : ℕ) :
    primal_obj (c3House pPV pB lt) c3Sol = 875 := by
  simp only [primal_obj, c3Sol, c3_hours, Finset.sum_const, Finset.card_range,
    nsmul_eq_mul]
  norm_num [c3House]

lemma c3_core (hp : HouseParams) (hH : hp.hours_num = 24)
    (hd : ∀ i < 24, hp.demands.getD i 0 = 1 / 24)
    (ha : ∀ i < 24, hp.PV_availabilities.getD i 0 = 0)
    (ht : hp.total_demand = 3500) (hcb : hp.cost_buy = 1 / 4)
    (hsp : hp.sell_price = 1 / 20)
    (hPV : 0 < hp.cost_PV) (hB : 0 < hp.cost_battery)
    (S : PrimalSol) (h : PrimalFeasible hp (fun _ => 0) S) :
    875 ≤ primal_obj hp S ∧
      (primal_obj hp S = 875 →
        S.capacity_PV = 0 ∧ S.capacity_battery = 0 ∧
        ∀ i < 24, S.energy_buy i = 1 / 24 * 3500) := by
  obtain ⟨⟨hpv0, hsoc0, hin0, hout0, hbuy0, hsell0, hcapB0, hcapPV0⟩,
    hdem, hbat, hlimPV, hlimB⟩ := h
  have hdem' : ∀ i < 24,
      S.energy_buy i - S.energy_sell i + S.energy_battery_out i -
        S.energy_battery_in i + S.energy_PV i = 1 / 24 * 3500 := by
    intro i hi
    have h1 := hdem i (by omega)
    rw [hd i hi, ht] at h1
    norm_num at h1
    linarith
  have hpvz : ∀ i < 24, S.energy_PV i = 0 := by
    intro i hi
    have h1 := hlimPV i (by omega)
    rw [ha i hi, mul_zero] at h1
    have h2 := hpv0 i (by omega)
    linarith
  have hsum_dem :
      (∑ i ∈ Finset.range 24, S.energy_buy i) -
        (∑ i ∈ Finset.range 24, S.energy_sell i) +
        (∑ i ∈ Finset.range 24, S.energy_battery_out i) -
        (∑ i ∈ Finset.range 24, S.energy_battery_in i) = 3500 := by
    have h1 : ∑ i ∈ Finset.range 24,
        (S.energy_buy i - S.energy_sell i + S.energy_battery_out i -
          S.energy_battery_in i + S.energy_PV i) =
        ∑ _i ∈ Finset.range 24, ((1 : ℚ) / 24 * 3500) :=
      Finset.sum_congr rfl fun i hi => hdem' i (Finset.mem_range.mp hi)
    rw [Finset.sum_const, Finset.card_range, nsmul_eq_mul] at h1
    have h2 : ∑ i ∈ Finset.range 24,
        (S.energy_buy i - S.energy_sell i + S.energy_battery_out i -
          S.energy_battery_in i + S.energy_PV i) =
        (∑ i ∈ Finset.range 24, S.energy_buy i) -
          (∑ i ∈ Finset.range 24, S.energy_sell i) +
          (∑ i ∈ Finset.range 24, S.energy_battery_out i) -
          (∑ i ∈ Finset.range 24, S.energy_battery_in i) +
          (∑ i ∈ Finset.range 24, S.energy_PV i) := by
      simp [Finset.sum_add_distrib, Finset.sum_sub_distrib]
    have h3 : ∑ i ∈ Finset.range 24, S.energy_PV i = 0 :=
      Finset.sum_eq_zero fun i hi => hpvz i (Finset.mem_range.mp hi)
    rw [h2, h3] at h1
    norm_num at h1
    linarith
  have hsum_bat : (∑ i ∈ Finset.range 24, S.energy_battery_in i) =
      ∑ i ∈ Finset.range 24, S.energy_battery_out i := by
    have h1 : ∑ i ∈ Finset.range 24,
        (S.energy_battery (pyListIdx 24 ((i : ℤ) - 1)) +
          S.energy_battery_in i - S.energy_battery_out i) =
        ∑ i ∈ Finset.range 24, S.energy_battery i := by
      refine Finset.sum_congr rfl fun i hi => ?_
      have hi24 := Finset.mem_range.mp hi
      have h2 := hbat i (by omega)
      rw [hH] at h2
      exact h2
    have h3 : ∑ i ∈ Finset.range 24,
        (S.energy_battery (pyListIdx 24 ((i : ℤ) - 1)) +
          S.energy_battery_in i - S.energy_battery_out i) =
        (∑ i ∈ Finset.range 24, S.energy_battery (pyListIdx 24 ((i : ℤ) - 1))) +
          (∑ i ∈ Finset.range 24, S.energy_battery_in i) -
          (∑ i ∈ Finset.range 24, S.energy_battery_out i) := by
      simp [Finset.sum_add_distrib, Finset.sum_sub_distrib]
    rw [h3, sum_pyPrev 24 S.energy_battery] at h1
    linarith
  have hobj : primal_obj hp S =
      hp.cost_PV * S.capacity_PV + hp.cost_battery * S.capacity_battery +
        1 / 4 * (∑ i ∈ Finset.range 24, S.energy_buy i) -
        1 / 20 * (∑ i ∈ Finset.range 24, S.energy_sell i) := by
    simp only [primal_obj, hH, hcb, hsp]
  have hsell_nn : 0 ≤ ∑ i ∈ Finset.range 24, S.energy_sell i :=
    Finset.sum_nonneg fun i hi => hsell0 i (by
      have := Finset.mem_range.mp hi; omega)
  have hterm1 : 0 ≤ hp.cost_PV * S.capacity_PV := mul_nonneg hPV.le hcapPV0
  have hterm2 : 0 ≤ hp.cost_battery * S.capacity_battery :=
    mul_nonneg hB.le hcapB0
  have hBuy : (∑ i ∈ Finset.range 24, S.energy_buy i) =
      3500 + ∑ i ∈ Finset.range 24, S.energy_sell i := by
    linarith
  constructor
  · rw [hobj, hBuy]
    linarith
  · intro heq
    rw [hobj, hBuy] at heq
    have ht1z : hp.cost_PV * S.capacity_PV = 0 := by linarith
    have ht2z : hp.cost_battery * S.capacity_battery = 0 := by linarith
    have hsz : ∑ i ∈ Finset.range 24, S.energy_sell i = 0 := by linarith
    have hcapPVz : S.capacity_PV = 0 :=
      (mul_eq_zero.mp ht1z).resolve_left (ne_of_gt hPV)
    have hcapBz : S.capacity_battery = 0 :=
      (mul_eq_zero.mp ht2z).resolve_left (ne_of_gt hB)
    have hsellz : ∀ i < 24, S.energy_sell i = 0 := by
      intro i hi
      have h1 := (Finset.sum_eq_zero_iff_of_nonneg fun j hj =>
        hsell0 j (by have := Finset.mem_range.mp hj; omega)).mp hsz
      exact h1 i (Finset.mem_range.mpr hi)
    have hsocz : ∀ i < 24, S.energy_battery i = 0 := by
      intro i hi
      have h1 := hlimB i (by omega)
      rw [hcapBz] at h1
      have h2 := hsoc0 i (by omega)
      linarith
    refine ⟨hcapPVz, hcapBz, ?_⟩
    intro i hi
    have h1 := hbat i (by omega)
    rw [hH] at h1
    have h2 : S.energy_battery (pyListIdx 24 ((i : ℤ) - 1)) = 0 :=
      hsocz _ (pyListIdx_prev_lt 24 i hi)
    have h3 : S.energy_battery i = 0 := hsocz i hi
    have h4 := hdem' i hi
    rw [hpvz i hi, hsellz i hi] at h4
    linarith

lemma count_solve_blocks (l : List ℕ) :
    ((l.flatMap
        fun i => [Step.setValidIneqObj i, Step.solve, Step.getObjValue none]).count
      Step.solve) = l.length := by
  induction l with
  | nil => rfl
  | cons a l ih =>
    simp only [List.flatMap_cons, List.count_append, ih, List.count_cons,
      List.count_nil, beq_iff_eq, List.length_cons]
    simp only [reduceCtorEq, if_false, if_true]
    omega

lemma countP_auxSolve_blocks (l : List ℕ) :
    (((l.flatMap
        fun i => [Step.setValidIneqObj i, Step.solve, Step.getObjValue none]).map
          (fun s => (false, s))).countP
      (fun p => p = (false, Step.solve))) = l.length := by
  induction l with
  | nil => rfl
  | cons a l ih =>
    simp only [List.flatMap_cons, List.map_append, List.countP_append, ih]
    simp only [List.map_cons, List.map_nil, List.countP_cons, List.countP_nil,
      List.length_cons]
    simp
    omega

lemma mkFixConstrs_length (m : FixState) (v : Option ℚ) :
    ∀ (xs : List ℕ) (n : ℕ), (mkFixConstrs m v n xs).length = xs.length
  | [], _ => rfl
  | _ :: xs, n => by
    simp only [mkFixConstrs, List.length_cons, mkFixConstrs_length m v xs]

lemma mkFixConstrs_snd (m : FixState) (v : Option ℚ) :
    ∀ (xs : List ℕ) (n : ℕ),
      (mkFixConstrs m v n xs).map Prod.snd =
        xs.map (fun x => FixConstr.mk (pinValue m v x) x)
  | [], _ => rfl
  | _ :: xs, n => by
    simp only [mkFixConstrs, List.map_cons, mkFixConstrs_snd m v xs]

lemma mkFixConstrs_ids (m : FixState) (v : Option ℚ) :
    ∀ (xs : List ℕ) (n : ℕ) (c : ℕ × FixConstr),
      c ∈ mkFixConstrs m v n xs → n ≤ c.1 ∧ c.1 < n + xs.length := by
  intro xs
  induction xs with
  | nil => intro n c hc; simp [mkFixConstrs] at hc
  | cons x xs ih =>
    intro n c hc
    simp only [mkFixConstrs, List.mem_cons] at hc
    rcases hc with rfl | hc
    · simp
    · have := ih (n + 1) c hc
      constructor <;> [omega; (simp only [List.length_cons]; omega)]

lemma lookup_setEntry (g : VarGroup) (ids : List ℕ) :
    ∀ l : List (VarGroup × List ℕ), (setEntry g ids l).lookup g = some ids := by
  intro l
  induction l with
  | nil => simp [setEntry, List.lookup]
  | cons p rest ih =>
    obtain ⟨g', ids'⟩ := p
    by_cases h : g' = g
    · simp [setEntry, h, List.lookup]
    · simp only [setEntry, if_neg h, List.lookup]
      have hne : (g == g') = false := by
        simp only [beq_eq_false_iff_ne, ne_eq]
        exact fun hgg => h hgg.symm
      simp [hne, ih]

lemma lookup_filter_ne (g : VarGroup) :
    ∀ l : List (VarGroup × List ℕ),
      (l.filter (fun p => p.1 ≠ g)).lookup g = none := by
  intro l
  induction l with
  | nil => rfl
  | cons p rest ih =>
    obtain ⟨g', ids'⟩ := p
    by_cases h : g' = g
    · simp only [List.filter, h, ih]
      simp [ih]
      exact fun a b _ hag hga => hag hga.symm
    · simp only [List.filter_cons]
      have hd : (decide ((g', ids').1 ≠ g)) = true := by simp [h]
      rw [if_pos hd]
      have hne : (g == g') = false := by
        simp only [beq_eq_false_iff_ne, ne_eq]
        exact fun hgg => h hgg.symm
      simp only [List.lookup, hne]
      simp [ih]
      exact fun a b _ hag hga => hag hga.symm

lemma outerGap_of_ne (p d : ℚ) (h : p ≠ 0) :
    outerGap p d = some |(p - d) / p| := by
  simp [outerGap, pyDiv, h]

lemma innerLoop_go (step : ℚ → Snaps → Snaps) (eps : ℚ) (maxIter : ℕ)
    (mu : ℚ) (s0 : Snaps) :
    ∀ (fuel i : ℕ), maxIter < i + fuel + 1 → 1 ≤ i →
      ∃ k, i ≤ k ∧
        innerLoop step eps maxIter mu i (innerSeq step mu s0 (i - 1)) =
          (k, innerSeq step mu s0 k) ∧
        innerStop step eps maxIter mu s0 k ∧
        ∀ m, i ≤ m → m < k → ¬ innerStop step eps maxIter mu s0 m := by
  intro fuel
  induction fuel with
  | zero =>
    intro i hfu hi
    have hstep : step mu (innerSeq step mu s0 (i - 1)) =
        innerSeq step mu s0 i := by
      have h1 : i - 1 + 1 = i := by omega
      conv_rhs => rw [← h1]
      rfl
    refine ⟨i, le_refl i, ?_, Or.inr (by omega),
      fun m h1 h2 => absurd h2 (by omega)⟩
    rw [innerLoop]
    have hc : maxIter ≤ i := by omega
    rw [dif_pos (Or.inr hc), hstep]
  | succ fuel ih =>
    intro i hfu hi
    have hstep : step mu (innerSeq step mu s0 (i - 1)) =
        innerSeq step mu s0 i := by
      have h1 : i - 1 + 1 = i := by omega
      conv_rhs => rw [← h1]
      rfl
    by_cases hc : snapsDiff (innerSeq step mu s0 (i - 1))
        (step mu (innerSeq step mu s0 (i - 1))) < (eps : WithBot ℚ) ∨
        maxIter ≤ i
    · refine ⟨i, le_refl i, ?_, ?_, fun m h1 h2 => absurd h2 (by omega)⟩
      · rw [innerLoop, dif_pos hc, hstep]
      · rw [hstep] at hc
        exact hc
    · obtain ⟨k, hk1, hk2, hk3, hk4⟩ := ih (i + 1) (by omega) (by omega)
      have h1 : i + 1 - 1 = i := by omega
      rw [h1] at hk2
      refine ⟨k, by omega, ?_, hk3, ?_⟩
      · rw [innerLoop, dif_neg hc, hstep]
        exact hk2
      · intro m hm1 hm2
        rcases Nat.eq_or_lt_of_le hm1 with rfl | hlt
        · rw [hstep] at hc
          simp only [innerStop]
          exact hc
        · exact hk4 m (by omega) hm2

lemma innerLoop_spec (step : ℚ → Snaps → Snaps) (eps : ℚ) (maxIter : ℕ)
    (mu : ℚ) (s0 : Snaps) :
    ∃ k, 1 ≤ k ∧
      innerLoop step eps maxIter mu 1 s0 = (k, innerSeq step mu s0 k) ∧
      innerStop step eps maxIter mu s0 k ∧
      ∀ m, 1 ≤ m → m < k → ¬ innerStop step eps maxIter mu s0 m := by
  have h := innerLoop_go step eps maxIter mu s0 maxIter 1 (by omega) (le_refl 1)
  simpa using h

lemma outerSeq_mu (step : ℚ → Snaps → Snaps) (eps : ℚ) (maxInner : ℕ)
    (incr : ℚ) (mu0 : ℚ) (s0 : Snaps) :
    ∀ n, (outerSeq step eps maxInner incr mu0 s0 n).1 = mu0 * incr ^ n := by
  intro n
  induction n with
  | zero => simp [outerSeq]
  | succ n ih =>
    simp only [outerSeq, ih]
    ring

lemma outerLoop_unfold (step : ℚ → Snaps → Snaps) (pd : ℚ → Snaps → ℚ × ℚ)
    (eps : ℚ) (maxInner : ℕ) (peps : ℚ) (maxOuter : ℕ) (incr : ℚ)
    (j : ℕ) (mu : ℚ) (s : Snaps) (gap : ℚ)
    (hgap : outerGap (pd mu (innerLoop step eps maxInner mu 1 s).2).1
      (pd mu (innerLoop step eps maxInner mu 1 s).2).2 = some gap) :
    outerLoop step pd eps maxInner peps maxOuter incr j mu s =
      if gap < peps ∨ maxOuter ≤ j then
        some (j, mu, (innerLoop step eps maxInner mu 1 s).2)
      else outerLoop step pd eps maxInner peps maxOuter incr (j + 1)
        (mu * incr) (innerLoop step eps maxInner mu 1 s).2 := by
  rw [outerLoop, hgap]
  split
  next heq => cases heq
  next g heq =>
    cases heq
    rfl

lemma outerLoop_go (step : ℚ → Snaps → Snaps) (pd : ℚ → Snaps → ℚ × ℚ)
    (eps : ℚ) (maxInner : ℕ) (peps : ℚ) (maxOuter : ℕ) (incr : ℚ)
    (mu0 : ℚ) (s0 : Snaps)
    (hnz : ∀ m, 1 ≤ m →
      (outerPD step pd eps maxInner incr mu0 s0 m).1 ≠ 0) :
    ∀ (fuel j : ℕ), maxOuter < j + fuel + 1 → 1 ≤ j →
      ∃ K, j ≤ K ∧
        outerLoop step pd eps maxInner peps maxOuter incr j
            (outerSeq step eps maxInner incr mu0 s0 (j - 1)).1
            (outerSeq step eps maxInner incr mu0 s0 (j - 1)).2 =
          some (K, (outerSeq step eps maxInner incr mu0 s0 (K - 1)).1,
            (innerLoop step eps maxInner
              (outerSeq step eps maxInner incr mu0 s0 (K - 1)).1 1
              (outerSeq step eps maxInner incr mu0 s0 (K - 1)).2).2) ∧
        outerStop step pd eps maxInner peps maxOuter incr mu0 s0 K ∧
        ∀ m, j ≤ m → m < K →
          ¬ outerStop step pd eps maxInner peps maxOuter incr mu0 s0 m := by
  intro fuel
  induction fuel with
  | zero =>
    intro j hfu hj
    refine ⟨j, le_refl j, ?_, Or.inr (by omega),
      fun m h1 h2 => absurd h2 (by omega)⟩
    rw [outerLoop_unfold step pd eps maxInner peps maxOuter incr j _ _ _
      (outerGap_of_ne _ _ (hnz j hj))]
    rw [if_pos (Or.inr (by omega : maxOuter ≤ j))]
  | succ fuel ih =>
    intro j hfu hj
    by_cases hc : outerStop step pd eps maxInner peps maxOuter incr mu0 s0 j
    · refine ⟨j, le_refl j, ?_, hc, fun m h1 h2 => absurd h2 (by omega)⟩
      rw [outerLoop_unfold step pd eps maxInner peps maxOuter incr j _ _ _
        (outerGap_of_ne _ _ (hnz j hj))]
      rw [if_pos (by simpa only [outerStop] using hc)]
    · obtain ⟨K, hK1, hK2, hK3, hK4⟩ := ih (j + 1) (by omega) (by omega)
      have h1 : j + 1 - 1 = j := by omega
      rw [h1] at hK2
      have hsq : outerSeq step eps maxInner incr mu0 s0 j =
          ((outerSeq step eps maxInner incr mu0 s0 (j - 1)).1 * incr,
            (innerLoop step eps maxInner
              (outerSeq step eps maxInner incr mu0 s0 (j - 1)).1 1
              (outerSeq step eps maxInner incr mu0 s0 (j - 1)).2).2) := by
        have h2 : j - 1 + 1 = j := by omega
        conv_lhs => rw [← h2]
        rfl
      refine ⟨K, by omega, ?_, hK3, ?_⟩
      · rw [outerLoop_unfold step pd eps maxInner peps maxOuter incr j _ _ _
          (outerGap_of_ne _ _ (hnz j hj))]
        rw [if_neg (by simpa only [outerStop] using hc)]
        rw [hsq] at hK2
        exact hK2
      · intro m hm1 hm2
        rcases Nat.eq_or_lt_of_le hm1 with rfl | hlt
        · exact hc
        · exact hK4 m (by omega) hm2

lemma outerLoop_spec (step : ℚ → Snaps → Snaps) (pd : ℚ → Snaps → ℚ × ℚ)
    (eps : ℚ) (maxInner : ℕ) (peps : ℚ) (maxOuter : ℕ) (incr : ℚ)
    (mu0 : ℚ) (s0 : Snaps)
    (hnz : ∀ m, 1 ≤ m →
      (outerPD step pd eps maxInner incr mu0 s0 m).1 ≠ 0) :
    ∃ K, 1 ≤ K ∧
      outerLoop step pd eps maxInner peps maxOuter incr 1 mu0 s0 =
        some (K, (outerSeq step eps maxInner incr mu0 s0 (K - 1)).1,
          (innerLoop step eps maxInner
            (outerSeq step eps maxInner incr mu0 s0 (K - 1)).1 1
            (outerSeq step eps maxInner incr mu0 s0 (K - 1)).2).2) ∧
      outerStop step pd eps maxInner peps maxOuter incr mu0 s0 K ∧
      ∀ m, 1 ≤ m → m < K →
        ¬ outerStop step pd eps maxInner peps maxOuter incr mu0 s0 m := by
  have h := outerLoop_go step pd eps maxInner peps maxOuter incr mu0 s0 hnz
    maxOuter 1 (by omega) (le_refl 1)
  simpa [outerSeq] using h

end AdvAttack

open AdvAttack

/-- C4: in every assignment satisfying the constraints of
`add_primal_constrs`, the circular battery balance
`batterySoC[i] = batterySoC[(i-1) mod H] + batteryIn[i] - batteryOut[i]`
holds for every hour `i < H`, including the wraparound at `i = 0` (where the
Python expression `range(H)[i-1]` picks hour `H-1`). -/
theorem C4_battery_balance_circular (hp : HouseParams) (delta : ℕ → ℚ)
    (S : PrimalSol) (hfeas : PrimalFeasible hp delta S) :
    ∀ i < hp.hours_num,
      S.energy_battery i =
        S.energy_battery ((((i : ℤ) - 1) % (hp.hours_num : ℤ)).toNat) +
          S.energy_battery_in i - S.energy_battery_out i := by
  intro i hi
  have h := hfeas.2.2.1 i hi
  rw [pyListIdx_prev_eq_emod hp.hours_num i hi] at h
  linarith

/-- Witness for C4: the all-zero assignment over the two-hour witness house
satisfies the primal constraints, and the circular balance follows. -/
theorem C4_battery_balance_circular_witness :
    PrimalFeasible wHouse (fun _ => 0) zeroSol ∧
      ∀ i < wHouse.hours_num,
        zeroSol.energy_battery i =
          zeroSol.energy_battery ((((i : ℤ) - 1) % (wHouse.hours_num : ℤ)).toNat) +
            zeroSol.energy_battery_in i - zeroSol.energy_battery_out i :=
  ⟨wHouse_feasible,
    C4_battery_balance_circular wHouse (fun _ => 0) zeroSol wHouse_feasible⟩

/-- C3: over the scenario `H = 24`, uniform demand shares `1/24`, total
demand `3500`, zero PV availability, attack bounds `lb = ub = 0` (delta
pinned to `0`), buy price `0.25`, sell price `0.05`, and positive unit costs
for PV and battery capacity: the claimed point (no PV, no battery,
`buy[i] = (1/24)*3500`) is feasible with primal cost `875`, every feasible
point costs at least `875`, and any feasible point of cost exactly `875`
has `capacity_PV = 0`, `capacity_battery = 0` and `buy[i] = (1/24)*3500` in
every hour — so the optimum is unique in those components. -/
theorem C3_baseline_scenario (pPV pB : ℚ) (lt : ℕ)
    (hPV : 0 < (c3House pPV pB lt).cost_PV)
    (hB : 0 < (c3House pPV pB lt).cost_battery) :
    PrimalFeasible (c3House pPV pB lt) (fun _ => 0) c3Sol ∧
      primal_obj (c3House pPV pB lt) c3Sol = 875 ∧
      (∀ i, c3Attack.lb.at i = 0 ∧ c3Attack.ub.at i = 0) ∧
      ∀ S : PrimalSol, PrimalFeasible (c3House pPV pB lt) (fun _ => 0) S →
        875 ≤ primal_obj (c3House pPV pB lt) S ∧
        (primal_obj (c3House pPV pB lt) S = 875 →
          S.capacity_PV = 0 ∧ S.capacity_battery = 0 ∧
          ∀ i < 24, S.energy_buy i = 1 / 24 * 3500) :=
  ⟨c3Sol_feasible pPV pB lt, c3Sol_obj pPV pB lt, fun _ => ⟨rfl, rfl⟩,
    fun S hS => c3_core (c3House pPV pB lt) (c3_hours pPV pB lt)
      (fun i hi => getD_rep _ _ _ _ hi) (fun i hi => getD_rep _ _ _ _ hi)
      rfl rfl rfl hPV hB S hS⟩

/-- Witness for C3 at concrete prices `price_PV = price_battery = 1`,
`life_time = 1`. -/
theorem C3_baseline_scenario_witness :
    (0 < (c3House 1 1 1).cost_PV ∧ 0 < (c3House 1 1 1).cost_battery) ∧
      (PrimalFeasible (c3House 1 1 1) (fun _ => 0) c3Sol ∧
        primal_obj (c3House 1 1 1) c3Sol = 875 ∧
        (∀ i, c3Attack.lb.at i = 0 ∧ c3Attack.ub.at i = 0) ∧
        ∀ S : PrimalSol, PrimalFeasible (c3House 1 1 1) (fun _ => 0) S →
          875 ≤ primal_obj (c3House 1 1 1) S ∧
          (primal_obj (c3House 1 1 1) S = 875 →
            S.capacity_PV = 0 ∧ S.capacity_battery = 0 ∧
            ∀ i < 24, S.energy_buy i = 1 / 24 * 3500)) :=
  ⟨⟨by norm_num [c3House, HouseParams.cost_PV],
    by norm_num [c3House, HouseParams.cost_battery]⟩,
    C3_baseline_scenario 1 1 1
      (by norm_num [c3House, HouseParams.cost_PV])
      (by norm_num [c3House, HouseParams.cost_battery])⟩

/-- C1 (what the code does): the attack solvers' objective expression is
indeed the sum over all hours of the `abs` variables, and `bigM_attack` and
`sos_attack` set it via `set_obj("upper_level")` — but `set_obj` maps
`"upper_level"` to `GRB.MINIMIZE`, not to maximization, and
`sos_valid_ineq_attack` performs no `set_obj` call at all on its model. -/
theorem C1_attack_objective_sense_is_minimize :
    set_obj_sense ObjKey.upper_level = Except.ok Sense.minimize ∧
      Sense.minimize ≠ Sense.maximize ∧
      Step.setObj ObjKey.upper_level ∈ bigM_attack_trace ∧
      Step.setObj ObjKey.upper_level ∈ sos_attack_trace ∧
      sos_valid_ineq_main_trace.any Step.isSetObj = false ∧
      ∀ H absv, upper_level_obj H absv = ∑ i ∈ Finset.range H, absv i :=
  ⟨rfl, by decide, by decide, by decide, by decide, fun _ _ => rfl⟩

/-- C2 (counterexample): `Control.sos_attack` contains no status branch at
all, yet reads objective and variable values right after its `solve` —
refuting the claim that values are read only after branching on the solver
status. -/
theorem C2_counterexample_sos_attack :
    readsAfterSolve sos_attack_trace = true ∧
      Step.branchOnStatus ∉ sos_attack_trace ∧
      sos_attack_trace.count Step.solve = 1 := by
  decide

/-- C2 (amended): none of the public `Control` operations inspects the
status returned by `HouseModel.solve`; each reads objective or variable
values unconditionally after `solve`. -/
theorem C2_no_status_branch_anywhere :
    (Step.branchOnStatus ∉ primal_model_trace ∧
      readsAfterSolve primal_model_trace = true) ∧
    (Step.branchOnStatus ∉ dual_model_trace ∧
      readsAfterSolve dual_model_trace = true) ∧
    (Step.branchOnStatus ∉ bigM_attack_trace ∧
      readsAfterSolve bigM_attack_trace = true) ∧
    (Step.branchOnStatus ∉ sos_attack_trace ∧
      readsAfterSolve sos_attack_trace = true) ∧
    (Step.branchOnStatus ∉ sos_valid_ineq_main_trace ∧
      readsAfterSolve sos_valid_ineq_main_trace = true) ∧
    (∀ H, Step.branchOnStatus ∉ get_ub_valid_ineq_trace H) ∧
    (Step.branchOnStatus ∉ PADM_prefix_trace ∧
      readsAfterSolve PADM_prefix_trace = true) ∧
    (Step.branchOnStatus ∉ PADM_inner_body_trace ∧
      readsAfterSolve PADM_inner_body_trace = true) ∧
    Step.branchOnStatus ∉ PADM_outer_check_trace ∧
    Step.branchOnStatus ∉ PADM_final_trace := by
  refine ⟨by decide, by decide, by decide, by decide, by decide, ?_,
    by decide, by decide, by decide, by decide⟩
  intro H
  simp [get_ub_valid_ineq_trace, List.mem_flatMap]

/-- C6: the auxiliary model of `get_ub_valid_ineq` carries only the
upper-level and primal constraint families (no dual, complementarity, SOS,
big-M or cut constraints), performs one maximize-`delta[i]` solve per hour
(`H` solves in total), all of which happen before the solve of the main
reformulation model, to which exactly one valid-inequality cut is added;
and that cut bounds the primal objective by the dual objective expression
with `ub` substituted for `delta`. -/
theorem C6_valid_ineq_tightening (H : ℕ) :
    ((get_ub_valid_ineq_trace H).count Step.solve = H ∧
      (∀ i < H, Step.setValidIneqObj i ∈ get_ub_valid_ineq_trace H) ∧
      valid_ineq_obj_sense = Sense.maximize ∧
      (∀ delta i, valid_ineq_obj_expr delta i = delta i) ∧
      Step.addUpperLevelConstrs ∈ get_ub_valid_ineq_trace H ∧
      Step.addPrimalConstrs ∈ get_ub_valid_ineq_trace H ∧
      Step.addDualConstrs ∉ get_ub_valid_ineq_trace H ∧
      Step.addAuxConstrs ∉ get_ub_valid_ineq_trace H ∧
      Step.addSOSConstrs ∉ get_ub_valid_ineq_trace H ∧
      Step.addBigMConstrs ∉ get_ub_valid_ineq_trace H ∧
      Step.addValidIneqConstr ∉ get_ub_valid_ineq_trace H) ∧
    (∃ X Y, sos_valid_ineq_events H = X ++ (true, Step.solve) :: Y ∧
      X.countP (fun p => p = (false, Step.solve)) = H ∧
      (true, Step.solve) ∉ X ∧
      (sos_valid_ineq_events H).countP
        (fun p => p = (true, Step.addValidIneqConstr)) = 1) ∧
    ∀ (hp : HouseParams) (S : PrimalSol) (eq_demand : ℕ → ℚ) (ub : List ℚ),
      ValidIneqConstr hp S eq_demand ub ↔
        primal_obj hp S ≤ dual_obj hp eq_demand (fun i => ub.getD i 0) := by
  refine ⟨⟨?_, ?_, rfl, fun _ _ => rfl, ?_, ?_, ?_, ?_, ?_, ?_, ?_⟩,
    ⟨?_, ?_, ?_, ?_, ?_, ?_⟩, fun _ _ _ _ => Iff.rfl⟩
  · simp only [get_ub_valid_ineq_trace, List.count_append,
      count_solve_blocks, List.length_range]
    have h0 : List.count Step.solve
        [Step.addVars, Step.addUpperLevelConstrs, Step.addPrimalConstrs] = 0 :=
      rfl
    omega
  · intro i hi
    simp [get_ub_valid_ineq_trace, List.mem_flatMap]
    omega
  · simp [get_ub_valid_ineq_trace]
  · simp [get_ub_valid_ineq_trace]
  · simp [get_ub_valid_ineq_trace, List.mem_flatMap]
  · simp [get_ub_valid_ineq_trace, List.mem_flatMap]
  · simp [get_ub_valid_ineq_trace, List.mem_flatMap]
  · simp [get_ub_valid_ineq_trace, List.mem_flatMap]
  · simp [get_ub_valid_ineq_trace, List.mem_flatMap]
  · exact ([Step.addVars, .addUpperLevelConstrs, .addPrimalConstrs,
       .addDualConstrs, .addAuxConstrs, .addSOSConstrs].map
        (fun s => (true, s))) ++
      ((get_ub_valid_ineq_trace H).map (fun s => (false, s))) ++
      [(true, .addValidIneqConstr)]
  · exact [(true, .getObjValue (some .primal)),
      (true, .getObjValue (some .dual))]
  · simp [sos_valid_ineq_events]
  · simp only [List.countP_append, get_ub_valid_ineq_trace,
      List.map_append, countP_auxSolve_blocks, List.length_range]
    have h0 : ([Step.addVars, Step.addUpperLevelConstrs,
        Step.addPrimalConstrs, Step.addDualConstrs, Step.addAuxConstrs,
        Step.addSOSConstrs].map (fun s => (true, s))).countP
        (fun p => p = (false, Step.solve)) = 0 := rfl
    have h1 : ([Step.addVars, Step.addUpperLevelConstrs,
        Step.addPrimalConstrs].map (fun s => ((false : Bool), s))).countP
        (fun p => p = (false, Step.solve)) = 0 := rfl
    have h2 : ([((true : Bool), Step.addValidIneqConstr)]).countP
        (fun p => p = (false, Step.solve)) = 0 := rfl
    omega
  · simp [get_ub_valid_ineq_trace, List.mem_flatMap]
  · simp only [sos_valid_ineq_events, List.countP_append,
      get_ub_valid_ineq_trace, List.map_append, List.map_flatMap]
    have h1 : ((List.range H).flatMap
        (fun i => ([Step.setValidIneqObj i, Step.solve,
          Step.getObjValue none].map (fun s => (false, s))))).countP
        (fun p => p = (true, Step.addValidIneqConstr)) = 0 := by
      induction (List.range H) with
      | nil => rfl
      | cons a l ih => simp [List.flatMap_cons, List.countP_append, ih,
          List.countP_cons]
    rw [h1]
    decide

/-- C9: the `total_delta_ub` field of `AttackParams` is read by no
model-building code: the only places `AttackParams` is consumed are the
`delta` variable bounds of `add_vars` and the optional capacity pins of
`add_upper_level_constrs`, and both are invariant under changing
`total_delta_ub`. -/
theorem C9_total_delta_ub_never_read (hp : HouseParams) (ap : AttackParams)
    (x : ℚ) :
    (∀ U S, UpperLevelConstrs hp { ap with total_delta_ub := x } U S ↔
      UpperLevelConstrs hp ap U S) ∧
    (∀ U, DeltaBounds hp { ap with total_delta_ub := x } U ↔
      DeltaBounds hp ap U) := by
  cases ap
  exact ⟨fun _ _ => Iff.rfl, fun _ => Iff.rfl⟩

/-- C7: `fix_vars(name, v)` followed by `release_vars(name)` is a
round-trip: `fix_vars` appends exactly one pinning equality constraint per
variable of the group (pinning to `v`, or to the last solved value when `v`
is `None`), and `release_vars` removes exactly those constraints and the
bookkeeping entry, restoring the model's constraint list exactly. -/
theorem C7_fix_release_roundtrip (m : FixState) (g : VarGroup) (v : Option ℚ)
    (hwf : ∀ c ∈ m.constrs, c.1 < m.nextId) :
    (fix_vars m g v).constrs =
        m.constrs ++ mkFixConstrs m v m.nextId (m.vars g) ∧
      (mkFixConstrs m v m.nextId (m.vars g)).length = (m.vars g).length ∧
      (mkFixConstrs m v m.nextId (m.vars g)).map Prod.snd =
        (m.vars g).map (fun x => FixConstr.mk (pinValue m v x) x) ∧
      (∀ x, pinValue m none x = m.solvedX x) ∧
      (∀ q x, pinValue m (some q) x = q) ∧
      (release_vars (fix_vars m g v) g).constrs = m.constrs ∧
      ((release_vars (fix_vars m g v) g).fixMap.lookup g = none) := by
  refine ⟨rfl, mkFixConstrs_length m v _ _, mkFixConstrs_snd m v _ _,
    fun _ => rfl, fun _ _ => rfl, ?_, ?_⟩
  · show ((fix_vars m g v).constrs.filter
        (fun c => c.1 ∉ (((fix_vars m g v).fixMap.lookup g).getD []))) =
      m.constrs
    have hlk : (fix_vars m g v).fixMap.lookup g =
        some ((mkFixConstrs m v m.nextId (m.vars g)).map Prod.fst) :=
      lookup_setEntry g _ m.fixMap
    rw [hlk]
    show ((m.constrs ++ mkFixConstrs m v m.nextId (m.vars g)).filter
        (fun c => c.1 ∉ (mkFixConstrs m v m.nextId (m.vars g)).map Prod.fst)) =
      m.constrs
    rw [List.filter_append]
    have h1 : (m.constrs.filter
        (fun c => c.1 ∉ (mkFixConstrs m v m.nextId (m.vars g)).map Prod.fst)) =
        m.constrs := by
      rw [List.filter_eq_self]
      intro c hc
      simp only [decide_eq_true_eq]
      intro hmem
      obtain ⟨c', hc', hfst⟩ := List.mem_map.mp hmem
      have hbound := (mkFixConstrs_ids m v _ _ c' hc').1
      have := hwf c hc
      omega
    have h2 : ((mkFixConstrs m v m.nextId (m.vars g)).filter
        (fun c => c.1 ∉ (mkFixConstrs m v m.nextId (m.vars g)).map Prod.fst)) =
        [] := by
      rw [List.filter_eq_nil_iff]
      intro c hc
      simp only [decide_eq_true_eq, not_not]
      exact List.mem_map_of_mem Prod.fst hc
    rw [h1, h2, List.append_nil]
  · exact lookup_filter_ne g _

/-- Witness for C7 on a concrete model state with one existing constraint
and a two-variable group. -/
theorem C7_fix_release_roundtrip_witness :
    (∀ c ∈ (FixState.mk [(0, ⟨5, 7⟩)] [] (fun _ => [3, 4]) (fun _ => 2)
        1).constrs, c.1 < (FixState.mk [(0, ⟨5, 7⟩)] [] (fun _ => [3, 4])
        (fun _ => 2) 1).nextId) ∧
      ((fix_vars (FixState.mk [(0, ⟨5, 7⟩)] [] (fun _ => [3, 4]) (fun _ => 2)
          1) VarGroup.dual (some 9)).constrs =
        (FixState.mk [(0, ⟨5, 7⟩)] [] (fun _ => [3, 4]) (fun _ => 2)
          1).constrs ++ mkFixConstrs (FixState.mk [(0, ⟨5, 7⟩)] []
          (fun _ => [3, 4]) (fun _ => 2) 1) (some 9) 1 [3, 4] ∧
        (mkFixConstrs (FixState.mk [(0, ⟨5, 7⟩)] [] (fun _ => [3, 4])
          (fun _ => 2) 1) (some 9) 1 [3, 4]).length = ([3, 4] : List ℕ).length ∧
        (mkFixConstrs (FixState.mk [(0, ⟨5, 7⟩)] [] (fun _ => [3, 4])
          (fun _ => 2) 1) (some 9) 1 [3, 4]).map Prod.snd =
          ([3, 4] : List ℕ).map (fun x => FixConstr.mk (pinValue
            (FixState.mk [(0, ⟨5, 7⟩)] [] (fun _ => [3, 4]) (fun _ => 2) 1)
            (some 9) x) x) ∧
        (∀ x, pinValue (FixState.mk [(0, ⟨5, 7⟩)] [] (fun _ => [3, 4])
          (fun _ => 2) 1) none x = 2) ∧
        (∀ q x, pinValue (FixState.mk [(0, ⟨5, 7⟩)] [] (fun _ => [3, 4])
          (fun _ => 2) 1) (some q) x = q) ∧
        (release_vars (fix_vars (FixState.mk [(0, ⟨5, 7⟩)] []
          (fun _ => [3, 4]) (fun _ => 2) 1) VarGroup.dual (some 9))
          VarGroup.dual).constrs = [(0, ⟨5, 7⟩)] ∧
        ((release_vars (fix_vars (FixState.mk [(0, ⟨5, 7⟩)] []
          (fun _ => [3, 4]) (fun _ => 2) 1) VarGroup.dual (some 9))
          VarGroup.dual).fixMap.lookup VarGroup.dual = none)) :=
  ⟨by decide, C7_fix_release_roundtrip
    (FixState.mk [(0, ⟨5, 7⟩)] [] (fun _ => [3, 4]) (fun _ => 2) 1)
    VarGroup.dual (some 9) (by decide)⟩

/-- C5: the inner loop of `PADM_attack` exits exactly at the first
iteration `k` at which the largest signed componentwise decrease between
the previous and new primal/dual/upper-level snapshots (computed by
`diff_values`) falls below `stationary_error` or the iteration count
reaches `max_stationary_iter`; the outer loop stops exactly at the first
iteration `K` at which `|p - d| / |p|` falls below `penalty_error` or the
count reaches `max_penalty_iter`, and otherwise multiplies `mu` by
`increase_factor` before re-entering the inner loop, so the weight entering
outer iteration `n + 1` is `initial_mu * increase_factor ^ n`. -/
theorem C5_PADM_loop_exit_conditions (step : ℚ → Snaps → Snaps)
    (pd : ℚ → Snaps → ℚ × ℚ) (pp : PADM_Params) (s0 : Snaps)
    (hnz : ∀ m, 1 ≤ m → (outerPD step pd pp.stationary_error
      pp.max_stationary_iter pp.increase_factor pp.initial_mu s0 m).1 ≠ 0) :
    (∀ (mu : ℚ) (t0 : Snaps), ∃ k, 1 ≤ k ∧
      innerLoop step pp.stationary_error pp.max_stationary_iter mu 1 t0 =
        (k, innerSeq step mu t0 k) ∧
      innerStop step pp.stationary_error pp.max_stationary_iter mu t0 k ∧
      ∀ m, 1 ≤ m → m < k →
        ¬ innerStop step pp.stationary_error pp.max_stationary_iter mu t0 m) ∧
    (∀ n, (outerSeq step pp.stationary_error pp.max_stationary_iter
        pp.increase_factor pp.initial_mu s0 n).1 =
      pp.initial_mu * pp.increase_factor ^ n) ∧
    ∃ K, 1 ≤ K ∧
      PADM_attack step pd pp s0 =
        some (K, (outerSeq step pp.stationary_error pp.max_stationary_iter
            pp.increase_factor pp.initial_mu s0 (K - 1)).1,
          (innerLoop step pp.stationary_error pp.max_stationary_iter
            (outerSeq step pp.stationary_error pp.max_stationary_iter
              pp.increase_factor pp.initial_mu s0 (K - 1)).1 1
            (outerSeq step pp.stationary_error pp.max_stationary_iter
              pp.increase_factor pp.initial_mu s0 (K - 1)).2).2) ∧
      outerStop step pd pp.stationary_error pp.max_stationary_iter
        pp.penalty_error pp.max_penalty_iter pp.increase_factor
        pp.initial_mu s0 K ∧
      ∀ m, 1 ≤ m → m < K →
        ¬ outerStop step pd pp.stationary_error pp.max_stationary_iter
          pp.penalty_error pp.max_penalty_iter pp.increase_factor
          pp.initial_mu s0 m :=
  ⟨fun mu t0 => innerLoop_spec step pp.stationary_error
      pp.max_stationary_iter mu t0,
    outerSeq_mu step pp.stationary_error pp.max_stationary_iter
      pp.increase_factor pp.initial_mu s0,
    outerLoop_spec step pd pp.stationary_error pp.max_stationary_iter
      pp.penalty_error pp.max_penalty_iter pp.increase_factor
      pp.initial_mu s0 hnz⟩

/-- Witness for C5: a stationary solver oracle with constant objective
values `(1, 1)` never divides by zero, so the characterization applies. -/
theorem C5_PADM_loop_exit_conditions_witness :
    (∀ m, 1 ≤ m → (outerPD wStep wPD ({} : PADM_Params).stationary_error
      ({} : PADM_Params).max_stationary_iter
      ({} : PADM_Params).increase_factor
      ({} : PADM_Params).initial_mu wSnaps m).1 ≠ 0) ∧
    ((∀ (mu : ℚ) (t0 : Snaps), ∃ k, 1 ≤ k ∧
      innerLoop wStep ({} : PADM_Params).stationary_error
          ({} : PADM_Params).max_stationary_iter mu 1 t0 =
        (k, innerSeq wStep mu t0 k) ∧
      innerStop wStep ({} : PADM_Params).stationary_error
        ({} : PADM_Params).max_stationary_iter mu t0 k ∧
      ∀ m, 1 ≤ m → m < k →
        ¬ innerStop wStep ({} : PADM_Params).stationary_error
          ({} : PADM_Params).max_stationary_iter mu t0 m) ∧
    (∀ n, (outerSeq wStep ({} : PADM_Params).stationary_error
        ({} : PADM_Params).max_stationary_iter
        ({} : PADM_Params).increase_factor
        ({} : PADM_Params).initial_mu wSnaps n).1 =
      ({} : PADM_Params).initial_mu * ({} : PADM_Params).increase_factor ^ n) ∧
    ∃ K, 1 ≤ K ∧
      PADM_attack wStep wPD ({} : PADM_Params) wSnaps =
        some (K, (outerSeq wStep ({} : PADM_Params).stationary_error
            ({} : PADM_Params).max_stationary_iter
            ({} : PADM_Params).increase_factor
            ({} : PADM_Params).initial_mu wSnaps (K - 1)).1,
          (innerLoop wStep ({} : PADM_Params).stationary_error
            ({} : PADM_Params).max_stationary_iter
            (outerSeq wStep ({} : PADM_Params).stationary_error
              ({} : PADM_Params).max_stationary_iter
              ({} : PADM_Params).increase_factor
              ({} : PADM_Params).initial_mu wSnaps (K - 1)).1 1
            (outerSeq wStep ({} : PADM_Params).stationary_error
              ({} : PADM_Params).max_stationary_iter
              ({} : PADM_Params).increase_factor
              ({} : PADM_Params).initial_mu wSnaps (K - 1)).2).2) ∧
      outerStop wStep wPD ({} : PADM_Params).stationary_error
        ({} : PADM_Params).max_stationary_iter
        ({} : PADM_Params).penalty_error
        ({} : PADM_Params).max_penalty_iter
        ({} : PADM_Params).increase_factor
        ({} : PADM_Params).initial_mu wSnaps K ∧
      ∀ m, 1 ≤ m → m < K →
        ¬ outerStop wStep wPD ({} : PADM_Params).stationary_error
          ({} : PADM_Params).max_stationary_iter
          ({} : PADM_Params).penalty_error
          ({} : PADM_Params).max_penalty_iter
          ({} : PADM_Params).increase_factor
          ({} : PADM_Params).initial_mu wSnaps m) :=
  ⟨fun _ _ => one_ne_zero,
    C5_PADM_loop_exit_conditions wStep wPD ({} : PADM_Params) wSnaps
      (fun _ _ => one_ne_zero)⟩

/-- C10: the outer check of `PADM_attack` computes
`abs((p - d)/p)` with no guard on `p`; when the primal objective value is
exactly `0` the division errors (Python `ZeroDivisionError`) instead of
producing a gap value, and the whole `PADM_attack` run errors when this
happens at the first outer check. -/
theorem C10_outer_check_division_by_zero :
    (∀ d : ℚ, outerGap 0 d = none) ∧
    (∀ p d : ℚ, p ≠ 0 → outerGap p d = some |(p - d) / p|) ∧
    ∀ (step : ℚ → Snaps → Snaps) (pd : ℚ → Snaps → ℚ × ℚ)
      (pp : PADM_Params) (s0 : Snaps),
      (pd pp.initial_mu (innerLoop step pp.stationary_error
        pp.max_stationary_iter pp.initial_mu 1 s0).2).1 = 0 →
      PADM_attack step pd pp s0 = none := by
  refine ⟨fun d => by simp [outerGap, pyDiv], outerGap_of_ne, ?_⟩
  intro step pd pp s0 h
  rw [PADM_attack, outerLoop, h]
  simp [outerGap, pyDiv]

/-- Witness for C10: with the constant objective oracle `(0, 1)` the primal
objective value is `0`, and `PADM_attack` indeed errors. -/
theorem C10_outer_check_division_by_zero_witness :
    ((1 : ℚ) ≠ 0 ∧ outerGap 1 2 = some |((1 : ℚ) - 2) / 1|) ∧
      ((fun (_ : ℚ) (_ : Snaps) => ((0 : ℚ), (1 : ℚ)))
          ({} : PADM_Params).initial_mu
          (innerLoop wStep ({} : PADM_Params).stationary_error
            ({} : PADM_Params).max_stationary_iter
            ({} : PADM_Params).initial_mu 1 wSnaps).2).1 = 0 ∧
      PADM_attack wStep (fun _ _ => ((0 : ℚ), (1 : ℚ)))
        ({} : PADM_Params) wSnaps = none :=
  ⟨⟨one_ne_zero, C10_outer_check_division_by_zero.2.1 1 2 one_ne_zero⟩,
    rfl, C10_outer_check_division_by_zero.2.2 wStep
      (fun _ _ => ((0 : ℚ), (1 : ℚ))) ({} : PADM_Params) wSnaps rfl⟩

/-- C8 (counterexample): with a demand vector of length 2, a
PV-availability vector of length 1 and attack bounds `lb = 1 > 0 = ub`,
`HouseModel.__init__` still succeeds — construction does not fail fast on
either configuration error. -/
theorem C8_counterexample_no_validation :
    (houseModelInit c8House c8Attack).isOk = true ∧
      c8House.demands.length ≠ c8House.PV_availabilities.length ∧
      Bnd.at c8Attack.ub 0 < Bnd.at c8Attack.lb 0 := by
  refine ⟨rfl, by decide, by decide⟩

/-- C8 (amended): construction performs no validation at all — it succeeds
on every input — and a too-short PV-availability vector surfaces only later,
as an index error while `add_primal_constrs` builds the `limit_PV`
constraints. -/
theorem C8_no_validation_error_surfaces_late :
    (∀ (hp : HouseParams) (ap : AttackParams),
      (houseModelInit hp ap).isOk = true) ∧
      limitPV_build c8House = none :=
  ⟨fun _ _ => rfl, rfl⟩
